import Mathlib

/-!
Verification of the HTTP request parsing, routing and response building core
of `codecrafters-http-server-rust` (`src/lib.rs`).

The embedding models Rust strings as `List Char` (`Str`) and raw byte buffers
as `List Nat`.  Rust standard-library operations used by the source
(`str::split`, `str::trim`, `str::to_lowercase`, `str::starts_with`,
`str::ends_with`, `Vec::join`, `usize::from_str`, `String::from_utf8_lossy`)
are given executable models below.  `HashMap` values are modelled as
association lists whose order stands for the map's iteration order (the source
relies on no particular order).  Filesystem reads and writes are modelled by a
function from paths to optional byte contents.  A Rust panic (the unclamped
body slice, out-of-range indexing) is modelled by returning `none` from
`handle_request`.
-/

/-- A Rust `String` / `&str`, modelled as its list of characters. -/
abbrev Str := List Char

/-- Model of Rust `str::starts_with`: `strStartsWith s p` is true when `p` is a
prefix of `s`. -/
def strStartsWith : Str → Str → Bool
  | _, [] => true
  | [], _ :: _ => false
  | b :: ss, a :: ps => b == a && strStartsWith ss ps

/-- Model of Rust `str::ends_with`. -/
def strEndsWith (s p : Str) : Bool :=
  strStartsWith s.reverse p.reverse

/-- ASCII whitespace recognizer used to model Rust `str::trim`
(the inputs of interest contain only ASCII whitespace). -/
def isWsChar (c : Char) : Bool :=
  c == ' ' || c == '\t' || c == '\n' || c == '\r'

/-- Model of Rust `str::trim`: drop leading and trailing whitespace. -/
def trimStr (s : Str) : Str :=
  ((s.dropWhile isWsChar).reverse.dropWhile isWsChar).reverse

/-- Model of Rust `str::to_lowercase` (ASCII letters; the source only
normalizes header names, which are ASCII in every scenario of the design). -/
def toLowerStr (s : Str) : Str :=
  s.map Char.toLower

/-- Fuel-driven worker for `splitOnSep`; the fuel is an upper bound on the
number of characters still to be scanned, so the recursion is structural and
kernel-reducible. `acc` holds the current token reversed. -/
def splitFuel (sep : Str) : Nat → Str → Str → List Str
  | 0, s, acc => [acc.reverse ++ s]
  | _ + 1, [], acc => [acc.reverse]
  | fuel + 1, c :: rest, acc =>
    if strStartsWith (c :: rest) sep then
      acc.reverse :: splitFuel sep fuel (List.drop (sep.length - 1) rest) []
    else
      splitFuel sep fuel rest (c :: acc)

/-- Model of Rust `str::split(sep)` for a non-empty literal separator:
splits on each left-to-right non-overlapping occurrence, keeping empty
pieces, and always returns at least one piece. -/
def splitOnSep (sep s : Str) : List Str :=
  splitFuel sep s.length s []

/-- Model of Rust `Vec::join(sep)`. -/
def joinSep (sep : Str) : List Str → Str
  | [] => []
  | [x] => x
  | x :: y :: rest => x ++ sep ++ joinSep sep (y :: rest)

/-- Fuel-driven decimal rendering worker (structural recursion on fuel). -/
def natToStrAux : Nat → Nat → Str
  | 0, _ => []
  | fuel + 1, n =>
    if n < 10 then [Char.ofNat (48 + n)]
    else natToStrAux fuel (n / 10) ++ [Char.ofNat (48 + n % 10)]

/-- Model of Rust `ToString for u16`/`usize`: decimal representation. -/
def natToStr (n : Nat) : Str :=
  natToStrAux (n + 1) n

/-- Model of Rust `String::len`: the UTF-8 byte length of the string. -/
def byteLen (s : Str) : Nat :=
  (s.map Char.utf8Size).sum

/-- Association-list lookup, modelling Rust `HashMap::get`. -/
def lookupStr : List (Str × Str) → Str → Option Str
  | [], _ => none
  | (a, b) :: rest, k => if a = k then some b else lookupStr rest k

/-- Model of Rust `HashMap::insert`: overwrite the value when the key is
present (keys stay unique), otherwise add the new pair. -/
def mapInsert : List (Str × Str) → Str → Str → List (Str × Str)
  | [], k, v => [(k, v)]
  | (a, b) :: rest, k, v =>
    if a = k then (a, v) :: rest else (a, b) :: mapInsert rest k v

/-- Model of Rust `HashMap::entry(k).or_insert(v)`: insert only when the key
is absent, never overwriting an existing value. -/
def entryOrInsert (m : List (Str × Str)) (k v : Str) : List (Str × Str) :=
  match lookupStr m k with
  | some _ => m
  | none => m ++ [(k, v)]

/-- Model of Rust `str::parse::<usize>()`: an optional leading `+` followed by
at least one ASCII digit, no other characters, value below `2^64`
(64-bit `usize`; overflow is a parse error). -/
def parseUsize (s : Str) : Option Nat :=
  let digits : Str := match s with
    | '+' :: rest => rest
    | _ => s
  if digits ≠ [] ∧ digits.all (fun c => decide ('0' ≤ c) && decide (c ≤ '9')) then
    let n := digits.foldl (fun acc c => acc * 10 + (c.toNat - 48)) 0
    if n < 2 ^ 64 then some n else none
  else none

/-- The Unicode replacement character emitted by lossy UTF-8 decoding. -/
def replChar : Char := Char.ofNat 0xFFFD

/-- Is the byte a UTF-8 continuation byte (`0x80..=0xBF`)? -/
def isContByte (b : Nat) : Bool := 0x80 ≤ b && b ≤ 0xBF

/-- Valid range test for the second byte of a three-byte UTF-8 sequence. -/
def cont3Fst (b0 b1 : Nat) : Bool :=
  if b0 = 0xE0 then 0xA0 ≤ b1 && b1 ≤ 0xBF
  else if b0 = 0xED then 0x80 ≤ b1 && b1 ≤ 0x9F
  else isContByte b1

/-- Valid range test for the second byte of a four-byte UTF-8 sequence. -/
def cont4Fst (b0 b1 : Nat) : Bool :=
  if b0 = 0xF0 then 0x90 ≤ b1 && b1 ≤ 0xBF
  else if b0 = 0xF4 then 0x80 ≤ b1 && b1 ≤ 0x8F
  else isContByte b1

/-- Fuel-driven worker for `utf8Lossy` (structural recursion on fuel; every
step consumes at least one byte, so fuel equal to the length suffices). -/
def utf8LossyFuel : Nat → List Nat → Str
  | 0, _ => []
  | _ + 1, [] => []
  | fuel + 1, b0 :: rest =>
    if b0 < 0x80 then Char.ofNat b0 :: utf8LossyFuel fuel rest
    else if 0xC2 ≤ b0 ∧ b0 ≤ 0xDF then
      match rest with
      | [] => [replChar]
      | b1 :: rest1 =>
        if isContByte b1 then
          Char.ofNat ((b0 - 0xC0) * 64 + (b1 - 0x80)) :: utf8LossyFuel fuel rest1
        else replChar :: utf8LossyFuel fuel (b1 :: rest1)
    else if 0xE0 ≤ b0 ∧ b0 ≤ 0xEF then
      match rest with
      | [] => [replChar]
      | b1 :: rest1 =>
        if cont3Fst b0 b1 then
          match rest1 with
          | [] => [replChar]
          | b2 :: rest2 =>
            if isContByte b2 then
              Char.ofNat ((b0 - 0xE0) * 4096 + (b1 - 0x80) * 64 + (b2 - 0x80))
                :: utf8LossyFuel fuel rest2
            else replChar :: utf8LossyFuel fuel (b2 :: rest2)
        else replChar :: utf8LossyFuel fuel (b1 :: rest1)
    else if 0xF0 ≤ b0 ∧ b0 ≤ 0xF4 then
      match rest with
      | [] => [replChar]
      | b1 :: rest1 =>
        if cont4Fst b0 b1 then
          match rest1 with
          | [] => [replChar]
          | b2 :: rest2 =>
            if isContByte b2 then
              match rest2 with
              | [] => [replChar]
              | b3 :: rest3 =>
                if isContByte b3 then
                  Char.ofNat ((b0 - 0xF0) * 262144 + (b1 - 0x80) * 4096
                      + (b2 - 0x80) * 64 + (b3 - 0x80)) :: utf8LossyFuel fuel rest3
                else replChar :: utf8LossyFuel fuel (b3 :: rest3)
            else replChar :: utf8LossyFuel fuel (b2 :: rest2)
        else replChar :: utf8LossyFuel fuel (b1 :: rest1)
    else replChar :: utf8LossyFuel fuel rest

/-- Model of Rust `String::from_utf8_lossy`: decode UTF-8, replacing each
maximal invalid subsequence prefix with one replacement character. -/
def utf8Lossy (l : List Nat) : Str :=
  utf8LossyFuel l.length l

/-- Fuel-driven worker for `utf8Strict`. -/
def utf8StrictFuel : Nat → List Nat → Option Str
  | 0, _ => none
  | _ + 1, [] => some []
  | fuel + 1, b0 :: rest =>
    if b0 < 0x80 then (utf8StrictFuel fuel rest).map (Char.ofNat b0 :: ·)
    else if 0xC2 ≤ b0 ∧ b0 ≤ 0xDF then
      match rest with
      | [] => none
      | b1 :: rest1 =>
        if isContByte b1 then
          (utf8StrictFuel fuel rest1).map
            (Char.ofNat ((b0 - 0xC0) * 64 + (b1 - 0x80)) :: ·)
        else none
    else if 0xE0 ≤ b0 ∧ b0 ≤ 0xEF then
      match rest with
      | [] => none
      | b1 :: rest1 =>
        if cont3Fst b0 b1 then
          match rest1 with
          | [] => none
          | b2 :: rest2 =>
            if isContByte b2 then
              (utf8StrictFuel fuel rest2).map
                (Char.ofNat ((b0 - 0xE0) * 4096 + (b1 - 0x80) * 64 + (b2 - 0x80)) :: ·)
            else none
        else none
    else if 0xF0 ≤ b0 ∧ b0 ≤ 0xF4 then
      match rest with
      | [] => none
      | b1 :: rest1 =>
        if cont4Fst b0 b1 then
          match rest1 with
          | [] => none
          | b2 :: rest2 =>
            if isContByte b2 then
              match rest2 with
              | [] => none
              | b3 :: rest3 =>
                if isContByte b3 then
                  (utf8StrictFuel fuel rest3).map
                    (Char.ofNat ((b0 - 0xF0) * 262144 + (b1 - 0x80) * 4096
                        + (b2 - 0x80) * 64 + (b3 - 0x80)) :: ·)
                else none
            else none
        else none
    else none

/-- Model of strict UTF-8 decoding (`std::fs::read_to_string` fails on
invalid UTF-8): `none` on any invalid byte sequence. -/
def utf8Strict (l : List Nat) : Option Str :=
  utf8StrictFuel (l.length + 1) l

/-- Source `HttpVerb` (`lib.rs:12-23`): closed enumeration of HTTP methods. -/
inductive HttpVerb
  | GET | POST | PUT | DELETE | HEAD | OPTIONS | TRACE | CONNECT
deriving DecidableEq, Repr

/-- Source `EndpointKey` (`lib.rs:25-29`): verb plus normalized path pattern. -/
structure EndpointKey where
  verb : HttpVerb
  path : Str
deriving DecidableEq, Repr

/-- Source `StaticDirectoryEntry` (`lib.rs:31-35`). -/
structure StaticDirectoryEntry where
  directory : Str
  allow_upload : Bool
deriving DecidableEq, Repr

/-- Source `Request` (`lib.rs:37-46`): verb, full requested path, header map
with lowercase keys, decoded body text. -/
structure Request where
  verb : HttpVerb
  path : Str
  headers : List (Str × Str)
  body : Str
deriving DecidableEq, Repr

/-- Source `ServerRegistry` (`lib.rs:171-176`): registered endpoint handlers
and static-directory bindings; association lists model the hash maps, their
order standing for iteration order. -/
structure ServerRegistry where
  endpoints : List (EndpointKey × (Request → Str))
  static_directories : List (Str × StaticDirectoryEntry)

/-- The filesystem, modelled as a map from paths to optional byte contents. -/
def FS := Str → Option (List Nat)

/-- Model of `std::fs::File::create` + `write_all` (`lib.rs:367-368`):
create or truncate the file at `p`, leaving every other path unchanged. -/
def fsWrite (fs : FS) (p : Str) (contents : List Nat) : FS :=
  fun q => if q = p then some contents else fs q

/-- Model of `std::fs::read_to_string` (`lib.rs:335`): read the file's bytes
and decode them strictly as UTF-8; any failure is `none`. -/
def fsReadToString (fs : FS) (p : Str) : Option Str :=
  (fs p).bind utf8Strict

/-- Method-token mapping (`lib.rs:216-226`): case-sensitive match against the
verb names, unknown tokens defaulting to `GET`. -/
def verbOfToken (m : Str) : HttpVerb :=
  if m = "GET".data then HttpVerb.GET
  else if m = "POST".data then HttpVerb.POST
  else if m = "PUT".data then HttpVerb.PUT
  else if m = "DELETE".data then HttpVerb.DELETE
  else if m = "HEAD".data then HttpVerb.HEAD
  else if m = "OPTIONS".data then HttpVerb.OPTIONS
  else if m = "TRACE".data then HttpVerb.TRACE
  else if m = "CONNECT".data then HttpVerb.CONNECT
  else HttpVerb.GET

/-- Reason-phrase table of `Server::respond` (`lib.rs:138-146`). -/
def statusMessage (code : Nat) : Str :=
  if code = 200 then "OK".data
  else if code = 201 then "Created".data
  else if code = 400 then "Bad Request".data
  else if code = 401 then "Unauthorized".data
  else if code = 403 then "Forbidden".data
  else if code = 404 then "Not Found".data
  else "Unknown".data

/-- Source `Server::respond` (`lib.rs:132-168`): render status, body and
headers into the HTTP/1.1 wire format.  When the body is non-empty,
`Content-Type` and `Content-Length` are added through `entry().or_insert`,
i.e. only when absent. -/
def respond (status : Option Nat) (body : Option Str) (headers : Option (List (Str × Str))) : Str :=
  let status_code := status.getD 200
  let status_message := statusMessage status_code
  let body_string := body.getD []
  let header_map := headers.getD []
  let header_map :=
    if body_string ≠ [] then
      entryOrInsert (entryOrInsert header_map ("Content-Type".data) ("text/plain".data))
        ("Content-Length".data) (natToStr (byteLen body_string))
    else header_map
  let headers_string :=
    joinSep ("\r\n".data) (header_map.map (fun kv => kv.1 ++ ": ".data ++ kv.2))
  "HTTP/1.1 ".data ++ natToStr (status.getD 200) ++ " ".data ++ status_message
    ++ "\r\n".data ++ headers_string ++ "\r\n\r\n".data ++ body_string

/-- The header-parsing loop of `handle_request` (`lib.rs:245-262`): process
lines until the first empty line, splitting each on every colon; exactly two
parts insert a (lowercased trimmed name, trimmed value) pair, anything else
is skipped.  Returns the accumulated map and the unprocessed tail of the
line list (beginning with the empty line when one was found). -/
def parseHeaderLines : List Str → List (Str × Str) → List (Str × Str) × List Str
  | [], acc => (acc, [])
  | l :: rest, acc =>
    if l = [] then (acc, l :: rest)
    else
      match splitOnSep [':'] l with
      | [k, v] => parseHeaderLines rest (mapInsert acc (toLowerStr (trimStr k)) (trimStr v))
      | _ => parseHeaderLines rest acc

/-- Worker for `findBoundary`, carrying the current byte offset. -/
def findBoundaryAux : List Nat → Nat → Nat
  | b0 :: b1 :: b2 :: b3 :: rest, j =>
    if b0 = 13 ∧ b1 = 10 ∧ b2 = 13 ∧ b3 = 10 then j + 4
    else findBoundaryAux (b1 :: b2 :: b3 :: rest) (j + 1)
  | _, _ => 0

/-- The body-boundary scan of `handle_request` (`lib.rs:270-281`): the offset
just past the first CR-LF-CR-LF in the raw buffer, or `0` when there is
none. -/
def findBoundary (stream : List Nat) : Nat :=
  findBoundaryAux stream 0

/-- The body-extraction step of `handle_request` (`lib.rs:264-295`).
`remaining` is the line-list tail left by the header loop; the source's
`i + 1 < request_lines.len()` gate is exactly `remaining.length ≥ 2`.  The
slice `[body_start, body_start + content_length)` is taken without clamping;
an end past the buffer is an out-of-range panic in Rust, modelled as `none`. -/
def extractBody (stream : List Nat) (headers : List (Str × Str)) (remaining : List Str) :
    Option (Str × List Nat) :=
  if remaining.length ≥ 2 then
    let body_start := findBoundary stream
    if body_start > 0 then
      let content_length :=
        match lookupStr headers ("content-length".data) with
        | some v => (parseUsize v).getD 0
        | none => 0
      if body_start + content_length ≤ stream.length then
        let raw := (stream.drop body_start).take content_length
        some (utf8Lossy raw, raw)
      else none
    else some ([], [])
  else some ([], [])

/-- Outcome of the request-line/header stage of `handle_request`. -/
inductive ParsedHead
  | malformed
  | shortCircuit
  | ok (verb : HttpVerb) (path : Str) (headers : List (Str × Str)) (remaining : List Str)
deriving Repr

/-- The request-line and header stage of `handle_request` (`lib.rs:193-262`):
split the lossily decoded buffer on CR-LF; a first line that does not split
on spaces into exactly three tokens is malformed (400); a path that does not
start with `/` or has no non-empty `/`-separated segment short-circuits
(200); otherwise the verb, path, parsed headers and the header loop's
leftover lines are produced. -/
def parseHead (stream : List Nat) : ParsedHead :=
  match splitOnSep ['\r', '\n'] (utf8Lossy stream) with
  | [] => ParsedHead.malformed
  | first_line :: restLines =>
    match splitOnSep [' '] first_line with
    | [m, p, _] =>
      if strStartsWith p ['/'] = false then ParsedHead.shortCircuit
      else if ((splitOnSep ['/'] p).filter (fun s => !s.isEmpty)).length = 0 then
        ParsedHead.shortCircuit
      else
        ParsedHead.ok (verbOfToken m) p (parseHeaderLines restLines []).1
          (parseHeaderLines restLines []).2
    | _ => ParsedHead.malformed

/-- The endpoint-matching loop of `handle_request` (`lib.rs:298-317`): the
first entry whose verb equals the request verb and which survives the
source's negated guard
`!key.path.starts_with(requested_path) && !(key.path.ends_with("*") &&
requested_path.starts_with(&key.path[..len-1]))`. -/
def findMatch (eps : List (EndpointKey × (Request → Str))) (verb : HttpVerb)
    (requested_path : Str) : Option (EndpointKey × (Request → Str)) :=
  match eps with
  | [] => none
  | (key, h) :: rest =>
    if key.verb ≠ verb then findMatch rest verb requested_path
    else if ¬ strStartsWith key.path requested_path = true
        ∧ ¬ (strEndsWith key.path ['*'] = true
            ∧ strStartsWith requested_path key.path.dropLast = true) then
      findMatch rest verb requested_path
    else some (key, h)

/-- Content-Type table for static files (`lib.rs:340-346`), keyed on the last
`.`-separated piece of the filesystem path. -/
def extMime (piece : Str) : Str :=
  if piece = "html".data then "text/html".data
  else if piece = "css".data then "text/css".data
  else if piece = "js".data then "text/javascript".data
  else if piece = "png".data then "image/png".data
  else "application/octet-stream".data

/-- The static-directory loop of `handle_request` (`lib.rs:319-374`): for each
binding whose prefix the requested path starts with, a GET tries to read
`directory ++ path[prefix.len()..]` (failure falls through to the next
binding); a POST with upload enabled writes the raw body bytes and answers
201; anything else falls through.  When no binding produces a response the
result is 404 with empty body. -/
def serveStatic (dirs : List (Str × StaticDirectoryEntry)) (verb : HttpVerb)
    (requested_path : Str) (body_raw : List Nat) (fs : FS) : Option (Str × FS) :=
  match dirs with
  | [] => some (respond (some 404) none none, fs)
  | (path, entry) :: rest =>
    if strStartsWith requested_path path = false then
      serveStatic rest verb requested_path body_raw fs
    else
      let file_path := entry.directory ++ requested_path.drop path.length
      if verb = HttpVerb.GET then
        match fsReadToString fs file_path with
        | some contents =>
          some (respond (some 200) (some contents)
            (some [("Content-Type".data, extMime ((splitOnSep ['.'] file_path).getLastD [])),
                   ("Content-Length".data, natToStr (byteLen contents))]), fs)
        | none => serveStatic rest verb requested_path body_raw fs
      else if verb = HttpVerb.POST ∧ entry.allow_upload then
        some (respond (some 201) none none, fsWrite fs file_path body_raw)
      else serveStatic rest verb requested_path body_raw fs

/-- Source `ServerRegistry::handle_request` (`lib.rs:193-375`), composed from
its stages exactly in source order: request line, headers, body, endpoint
loop, static loop, final 404.  The result pairs the rendered response with
the possibly updated filesystem; `none` models a Rust panic (the unclamped
body slice). -/
def handle_request (reg : ServerRegistry) (stream : List Nat) (fs : FS) :
    Option (Str × FS) :=
  match parseHead stream with
  | ParsedHead.malformed => some (respond (some 400) none none, fs)
  | ParsedHead.shortCircuit => some (respond (some 200) none none, fs)
  | ParsedHead.ok verb p headers remaining =>
    match extractBody stream headers remaining with
    | none => none
    | some (body, body_raw) =>
      match findMatch reg.endpoints verb p with
      | some kh => some (kh.2 { verb := verb, path := p, headers := headers, body := body }, fs)
      | none => serveStatic reg.static_directories verb p body_raw fs

/-- The endpoint-match predicate as the specification words it: a pattern
ending in `*` matches exactly when the requested path starts with the pattern
minus its trailing `*`; otherwise the pattern must start with the requested
path.  Written from the claim, for comparison with the source's guard. -/
def claimMatch (pattern req : Str) : Bool :=
  if strEndsWith pattern ['*'] then strStartsWith req pattern.dropLast
  else strStartsWith pattern req

/-- The value of the last header line (before the first empty line) that
splits on colons into exactly two parts and whose normalized name is `q`.
Written from the amended claim, for comparison with the parsed map. -/
def lastHeaderValue : List Str → Str → Option Str
  | [], _ => none
  | l :: rest, q =>
    if l = [] then none
    else
      match splitOnSep [':'] l with
      | [k, v] =>
        match lastHeaderValue rest q with
        | some w => some w
        | none => if toLowerStr (trimStr k) = q then some (trimStr v) else none
      | _ => lastHeaderValue rest q

/-- The reason-phrase table as the specification words it. -/
def statusReasonSpec (code : Nat) : Str :=
  if code = 200 then "OK".data
  else if code = 201 then "Created".data
  else if code = 400 then "Bad Request".data
  else if code = 401 then "Unauthorized".data
  else if code = 403 then "Forbidden".data
  else if code = 404 then "Not Found".data
  else "Unknown".data

/-- The response builder as the specification words it: exactly
`HTTP/1.1 {code} {reason}` CR LF, the header lines joined by CR LF, CR LF CR
LF, then the body; missing status defaults to 200; when the body is non-empty
the `Content-Type: text/plain` and `Content-Length` defaults are appended
only when the caller-supplied header map does not already contain those keys. -/
def respondSpec (status : Option Nat) (body : Option Str)
    (headers : Option (List (Str × Str))) : Str :=
  let code := status.getD 200
  let reason := statusReasonSpec code
  let b := body.getD []
  let given := headers.getD []
  let withCT :=
    if b ≠ [] ∧ lookupStr given ("Content-Type".data) = none then
      given ++ [("Content-Type".data, "text/plain".data)]
    else given
  let withCL :=
    if b ≠ [] ∧ lookupStr given ("Content-Length".data) = none then
      withCT ++ [("Content-Length".data, natToStr (byteLen b))]
    else withCT
  "HTTP/1.1 ".data ++ natToStr code ++ " ".data ++ reason ++ "\r\n".data
    ++ joinSep ("\r\n".data) (withCL.map (fun kv => kv.1 ++ ": ".data ++ kv.2))
    ++ "\r\n\r\n".data ++ b

/-! Helper lemmas. -/

theorem splitFuel_ne_nil (sep : Str) : ∀ (fuel : Nat) (s acc : Str),
    splitFuel sep fuel s acc ≠ [] := by
  intro fuel
  induction fuel with
  | zero => intro s acc; simp [splitFuel]
  | succ n ih =>
    intro s acc
    cases s with
    | nil => simp [splitFuel]
    | cons c rest =>
      rw [splitFuel]
      by_cases h : strStartsWith (c :: rest) sep = true
      · rw [if_pos h]; simp
      · rw [if_neg h]; exact ih rest (c :: acc)

theorem splitOnSep_ne_nil (sep s : Str) : splitOnSep sep s ≠ [] :=
  splitFuel_ne_nil sep s.length s []

theorem lookupStr_mapInsert (m : List (Str × Str)) (k v q : Str) :
    lookupStr (mapInsert m k v) q = if k = q then some v else lookupStr m q := by
  induction m with
  | nil => simp [mapInsert, lookupStr]
  | cons hd tl ih =>
    obtain ⟨a, b⟩ := hd
    rw [mapInsert]
    by_cases hak : a = k
    · subst hak
      rw [if_pos rfl]
      by_cases haq : a = q
      · subst haq; simp [lookupStr]
      · simp [lookupStr, haq]
    · rw [if_neg hak]
      by_cases haq : a = q
      · subst haq
        have hkq : k ≠ a := fun he => hak he.symm
        simp [lookupStr, hkq]
      · simp [lookupStr, haq, ih]

theorem mem_fst_mapInsert (m : List (Str × Str)) (k v q : Str)
    (h : q ∈ (mapInsert m k v).map Prod.fst) :
    q ∈ m.map Prod.fst ∨ q = k := by
  induction m with
  | nil =>
    rw [mapInsert, List.map_cons] at h
    right
    rcases List.mem_cons.mp h with h2 | h2
    · exact h2
    · exact absurd h2 (List.not_mem_nil q)
  | cons hd tl ih =>
    obtain ⟨a, b⟩ := hd
    rw [mapInsert] at h
    by_cases hak : a = k
    · rw [if_pos hak] at h
      rw [List.map_cons] at h
      left
      rw [List.map_cons]
      exact h
    · rw [if_neg hak] at h
      rw [List.map_cons] at h
      rcases List.mem_cons.mp h with h2 | h2
      · left; rw [List.map_cons]; exact h2 ▸ List.mem_cons_self _ _
      · rcases ih h2 with h3 | h3
        · left; rw [List.map_cons]; exact List.mem_cons_of_mem _ h3
        · right; exact h3

theorem nodup_fst_mapInsert (m : List (Str × Str)) (k v : Str)
    (h : (m.map Prod.fst).Nodup) : ((mapInsert m k v).map Prod.fst).Nodup := by
  induction m with
  | nil => simp [mapInsert]
  | cons hd tl ih =>
    obtain ⟨a, b⟩ := hd
    rw [mapInsert]
    rw [List.map_cons, List.nodup_cons] at h
    by_cases hak : a = k
    · rw [if_pos hak, List.map_cons, List.nodup_cons]
      exact h
    · rw [if_neg hak, List.map_cons, List.nodup_cons]
      refine ⟨?_, ih h.2⟩
      intro hmem
      rcases mem_fst_mapInsert tl k v a hmem with h2 | h2
      · exact h.1 h2
      · exact hak h2

theorem mem_mapInsert (m : List (Str × Str)) (k v : Str) (kv : Str × Str)
    (h : kv ∈ mapInsert m k v) : kv.1 = k ∨ kv ∈ m := by
  induction m with
  | nil =>
    rw [mapInsert] at h
    rcases List.mem_cons.mp h with h2 | h2
    · left; rw [h2]
    · exact absurd h2 (List.not_mem_nil kv)
  | cons hd tl ih =>
    obtain ⟨a, b⟩ := hd
    rw [mapInsert] at h
    by_cases hak : a = k
    · rw [if_pos hak] at h
      rcases List.mem_cons.mp h with h2 | h2
      · left; rw [h2, hak]
      · right; exact List.mem_cons_of_mem _ h2
    · rw [if_neg hak] at h
      rcases List.mem_cons.mp h with h2 | h2
      · right; exact h2 ▸ List.mem_cons_self _ _
      · rcases ih h2 with h3 | h3
        · left; exact h3
        · right; exact List.mem_cons_of_mem _ h3

theorem charOfNat_toNat_valid (n : Nat) (h : n.isValidChar) :
    (Char.ofNat n).toNat = n := by
  rw [Char.ofNat, dif_pos h]
  rfl

theorem isUpper_eq_decide (c : Char) :
    c.isUpper = (decide (65 ≤ c.toNat) && decide (c.toNat ≤ 90)) := by
  rcases c with ⟨v, hv⟩
  simp [Char.isUpper, Char.toNat, UInt32.le_def, BitVec.le_def]
  rfl

theorem toLower_isUpper_false (c : Char) : (Char.toLower c).isUpper = false := by
  rw [Char.toLower]
  by_cases h : c.toNat ≥ 65 ∧ c.toNat ≤ 90
  · rw [if_pos h]
    have hv : (c.toNat + 32).isValidChar := Or.inl (by omega)
    rw [isUpper_eq_decide, charOfNat_toNat_valid _ hv]
    simp
    omega
  · rw [if_neg h]
    rw [isUpper_eq_decide]
    simp
    omega

theorem toLowerStr_no_upper (s : Str) : ∀ c ∈ toLowerStr s, c.isUpper = false := by
  intro c hc
  rw [toLowerStr] at hc
  obtain ⟨d, _, rfl⟩ := List.mem_map.mp hc
  exact toLower_isUpper_false d

theorem lookupStr_parseHeaderLines (lines : List Str) : ∀ (acc : List (Str × Str)) (q : Str),
    lookupStr (parseHeaderLines lines acc).1 q =
      (match lastHeaderValue lines q with
       | some w => some w
       | none => lookupStr acc q) := by
  induction lines with
  | nil => intro acc q; rfl
  | cons l rest ih =>
    intro acc q
    by_cases hl : l = []
    · subst hl; rfl
    · rw [parseHeaderLines, lastHeaderValue, if_neg hl, if_neg hl]
      rcases hsp : splitOnSep [':'] l with _ | ⟨k, _ | ⟨v, _ | ⟨w3, tl3⟩⟩⟩
      · exact absurd hsp (splitOnSep_ne_nil _ _)
      · exact ih acc q
      · rw [ih (mapInsert acc (toLowerStr (trimStr k)) (trimStr v)) q]
        cases h2 : lastHeaderValue rest q with
        | none =>
          rw [lookupStr_mapInsert]
          by_cases hkq : toLowerStr (trimStr k) = q
          · simp [h2, hkq]
          · simp [h2, hkq]
        | some w => simp [h2]
      · exact ih acc q

theorem nodup_parseHeaderLines (lines : List Str) : ∀ (acc : List (Str × Str)),
    (acc.map Prod.fst).Nodup → ((parseHeaderLines lines acc).1.map Prod.fst).Nodup := by
  induction lines with
  | nil => intro acc h; exact h
  | cons l rest ih =>
    intro acc h
    by_cases hl : l = []
    · subst hl; exact h
    · rw [parseHeaderLines, if_neg hl]
      rcases hsp : splitOnSep [':'] l with _ | ⟨k, _ | ⟨v, _ | ⟨w3, tl3⟩⟩⟩
      · exact absurd hsp (splitOnSep_ne_nil _ _)
      · exact ih acc h
      · exact ih _ (nodup_fst_mapInsert acc _ _ h)
      · exact ih acc h

theorem no_upper_parseHeaderLines (lines : List Str) : ∀ (acc : List (Str × Str)),
    (∀ kv ∈ acc, ∀ c ∈ kv.1, c.isUpper = false) →
    ∀ kv ∈ (parseHeaderLines lines acc).1, ∀ c ∈ kv.1, c.isUpper = false := by
  induction lines with
  | nil => intro acc h; exact h
  | cons l rest ih =>
    intro acc h
    by_cases hl : l = []
    · subst hl; exact h
    · rw [parseHeaderLines, if_neg hl]
      rcases hsp : splitOnSep [':'] l with _ | ⟨k, _ | ⟨v, _ | ⟨w3, tl3⟩⟩⟩
      · exact absurd hsp (splitOnSep_ne_nil _ _)
      · exact ih acc h
      · refine ih _ ?_
        intro kv hkv c hc
        rcases mem_mapInsert acc _ _ kv hkv with h2 | h2
        · exact toLowerStr_no_upper (trimStr k) c (h2 ▸ hc)
        · exact h kv h2 c hc
      · exact ih acc h

theorem findMatch_eq_find? (eps : List (EndpointKey × (Request → Str)))
    (verb : HttpVerb) (path : Str) :
    findMatch eps verb path = eps.find? (fun e =>
      decide (e.1.verb = verb) && (strStartsWith e.1.path path
        || (strEndsWith e.1.path ['*'] && strStartsWith path e.1.path.dropLast))) := by
  induction eps with
  | nil => rfl
  | cons hd rest ih =>
    obtain ⟨key, h⟩ := hd
    cases hA : strStartsWith key.path path <;>
      cases hB1 : strEndsWith key.path ['*'] <;>
      cases hB2 : strStartsWith path key.path.dropLast <;>
      by_cases hv : key.verb = verb <;>
      simp [findMatch, List.find?_cons, hA, hB1, hB2, hv, ih]

theorem findMatch_some_verb (eps : List (EndpointKey × (Request → Str)))
    (verb : HttpVerb) (path : Str) (key : EndpointKey) (h : Request → Str)
    (hm : findMatch eps verb path = some (key, h)) : key.verb = verb := by
  induction eps with
  | nil => exact absurd hm (by simp [findMatch])
  | cons hd rest ih =>
    obtain ⟨k0, h0⟩ := hd
    rw [findMatch] at hm
    by_cases hv : k0.verb ≠ verb
    · rw [if_pos hv] at hm; exact ih hm
    · rw [if_neg hv] at hm
      by_cases hc : ¬ strStartsWith k0.path path = true
          ∧ ¬ (strEndsWith k0.path ['*'] = true
              ∧ strStartsWith path k0.path.dropLast = true)
      · rw [if_pos hc] at hm; exact ih hm
      · rw [if_neg hc] at hm
        injection hm with h1
        cases h1
        exact not_not.mp hv

theorem serveStatic_all_miss (dirs : List (Str × StaticDirectoryEntry)) :
    ∀ (path : Str) (raw : List Nat) (fs : FS),
    (∀ pe ∈ dirs, strStartsWith path pe.1 = false
        ∨ fsReadToString fs (pe.2.directory ++ path.drop pe.1.length) = none) →
    serveStatic dirs HttpVerb.GET path raw fs = some (respond (some 404) none none, fs) := by
  induction dirs with
  | nil => intro path raw fs _; rfl
  | cons hd rest ih =>
    intro path raw fs h
    obtain ⟨p, e⟩ := hd
    have hhd := h (p, e) (List.mem_cons_self _ _)
    have htl : ∀ pe ∈ rest, strStartsWith path pe.1 = false
        ∨ fsReadToString fs (pe.2.directory ++ path.drop pe.1.length) = none :=
      fun pe hpe => h pe (List.mem_cons_of_mem _ hpe)
    rw [serveStatic]
    rcases hhd with hmiss | hread
    · rw [if_pos hmiss]
      exact ih path raw fs htl
    · by_cases hsw : strStartsWith path p = false
      · rw [if_pos hsw]
        exact ih path raw fs htl
      · rw [if_neg hsw]
        simp only [if_pos rfl, hread]
        exact ih path raw fs htl

theorem statusMessage_eq_spec (c : Nat) : statusMessage c = statusReasonSpec c := rfl

theorem lookupStr_append_single (m : List (Str × Str)) (a b q : Str) :
    lookupStr (m ++ [(a, b)]) q =
      (match lookupStr m q with
       | some w => some w
       | none => if a = q then some b else none) := by
  induction m with
  | nil => rfl
  | cons hd tl ih =>
    obtain ⟨x, y⟩ := hd
    by_cases hxq : x = q
    · simp [lookupStr, hxq]
    · simp [lookupStr, hxq, ih]

/-- C9: for every status, body and header input, `Server::respond` renders
exactly `HTTP/1.1 {code} {reason}` CR LF, the header lines joined by CR LF,
CR LF CR LF, then the body, with the missing status defaulting to 200, the
reason phrase drawn from the fixed table (200 OK, 201 Created, 400 Bad
Request, 401 Unauthorized, 403 Forbidden, 404 Not Found, otherwise Unknown),
and, when the body is non-empty, `Content-Type: text/plain` and
`Content-Length` (UTF-8 byte length) injected only when the caller-supplied
header map does not already contain those exact keys, never overwriting
caller values.  Stated as equality with `respondSpec`, the word-for-word
rendering of the specification. -/
theorem c9_respond_eq_spec : ∀ (s : Option Nat) (b : Option Str)
    (hs : Option (List (Str × Str))), respond s b hs = respondSpec s b hs := by
  intro s b hs
  have hk : ("Content-Type".data : Str) ≠ "Content-Length".data := by decide
  cases b with
  | none => rfl
  | some bs =>
    by_cases hbs : bs = []
    · subst hbs; rfl
    · cases hs with
      | none =>
        simp only [respond, respondSpec, Option.getD_some, Option.getD_none]
        rw [if_pos hbs]
        simp [entryOrInsert, lookupStr, hbs, statusMessage_eq_spec]
      | some hm =>
        simp only [respond, respondSpec, Option.getD_some, Option.getD_none]
        rw [if_pos hbs]
        cases hlCT : lookupStr hm ("Content-Type".data) with
        | some w =>
          cases hlCL : lookupStr hm ("Content-Length".data) with
          | some w2 => simp [entryOrInsert, hlCT, hlCL, hbs, statusMessage_eq_spec]
          | none => simp [entryOrInsert, hlCT, hlCL, hbs, statusMessage_eq_spec]
        | none =>
          cases hlCL : lookupStr hm ("Content-Length".data) with
          | some w2 =>
            simp [entryOrInsert, hlCT, hlCL, hbs, lookupStr_append_single, statusMessage_eq_spec]
          | none =>
            simp [entryOrInsert, hlCT, hlCL, hbs, lookupStr_append_single, hk, statusMessage_eq_spec]

/-- C1: the body slice `[body_start, body_start + content_length)` is taken
without clamping (`lib.rs:289-293`), so a `content-length` larger than the
bytes available after the CR-LF-CR-LF boundary makes the slice exceed the
buffer: an out-of-range panic in Rust, `none` in the embedding.  At this
input the boundary is at offset 38 of a 40-byte buffer (2 bytes available)
while the parsed `content-length` is 5, and `handle_request` reaches the
out-of-range branch, contradicting the claim that the branch is unreachable
and that the body length is `min(content-length, available)`. -/
theorem c1_unclamped_body_slice :
    handle_request ⟨[], []⟩
      (("GET /a HTTP/1.1\r\ncontent-length: 5\r\n\r\nab").data.map Char.toNat)
      (fun _ => none) = none ∧
    findBoundary (("GET /a HTTP/1.1\r\ncontent-length: 5\r\n\r\nab").data.map Char.toNat) = 38 ∧
    (("GET /a HTTP/1.1\r\ncontent-length: 5\r\n\r\nab").data.map Char.toNat).length = 40 :=
  ⟨rfl, rfl, rfl⟩

/-- C2 counterexample: for the registered pattern `/files/*` and requested
path `/f`, the claim's match predicate (pattern ends in `*`, so match exactly
when the path starts with `/files/`) says no match, yet the source's guard
also accepts a `*`-pattern through the reversed `starts_with` check
(`key.path.starts_with(requested_path)`, `lib.rs:304`), so the handler IS
invoked and its output is returned. -/
theorem c2_counterexample :
    claimMatch ("/files/*".data) ("/f".data) = false ∧
    handle_request ⟨[(⟨HttpVerb.GET, "/files/*".data⟩, fun _ => "H".data)], []⟩
      (("GET /f HTTP/1.1\r\n\r\n").data.map Char.toNat) (fun _ => none)
      = some ("H".data, fun _ => none) :=
  ⟨rfl, rfl⟩

/-- C2 (amended): for every registered entry, the source matches exactly when
the entry's verb equals the request verb AND (the pattern starts with the
requested path OR the pattern ends in `*` and the requested path starts with
the pattern minus its trailing `*`); the first such entry wins (`List.find?`)
and its handler is invoked on the parsed request. -/
theorem c2_amended_match :
    (∀ (eps : List (EndpointKey × (Request → Str))) (verb : HttpVerb) (path : Str),
      findMatch eps verb path = eps.find? (fun e =>
        decide (e.1.verb = verb) && (strStartsWith e.1.path path
          || (strEndsWith e.1.path ['*'] && strStartsWith path e.1.path.dropLast)))) ∧
    (∀ (reg : ServerRegistry) (stream : List Nat) (fs : FS) (verb : HttpVerb)
      (p : Str) (headers : List (Str × Str)) (remaining : List Str)
      (body : Str) (braw : List Nat) (key : EndpointKey) (hf : Request → Str),
      parseHead stream = ParsedHead.ok verb p headers remaining →
      extractBody stream headers remaining = some (body, braw) →
      findMatch reg.endpoints verb p = some (key, hf) →
      handle_request reg stream fs = some (hf ⟨verb, p, headers, body⟩, fs)) := by
  constructor
  · exact findMatch_eq_find?
  · intro reg stream fs verb p headers remaining body braw key hf h1 h2 h3
    simp [handle_request, h1, h2, h3]

/-- Witness for C2 (amended): a concrete request to `/files/x` against the
pattern `/files/*` invokes the registered handler. -/
theorem c2_amended_match_witness :
    handle_request ⟨[(⟨HttpVerb.GET, "/files/*".data⟩, fun _ => "W".data)], []⟩
      (("GET /files/x HTTP/1.1\r\n\r\n").data.map Char.toNat) (fun _ => none)
      = some ("W".data, fun _ => none) :=
  c2_amended_match.2 ⟨[(⟨HttpVerb.GET, "/files/*".data⟩, fun _ => "W".data)], []⟩
    (("GET /files/x HTTP/1.1\r\n\r\n").data.map Char.toNat) (fun _ => none)
    HttpVerb.GET ("/files/x".data) [] [[], []] [] []
    ⟨HttpVerb.GET, "/files/*".data⟩ (fun _ => "W".data) rfl rfl rfl

/-- C6 counterexample: with the duplicate header lines `a: 1` and `a: 2`,
the parsed map holds `2` — the value of the LAST occurrence — not `1`, both
at the `parseHeaderLines` level and as observed by a handler reading the
parsed request's header map. -/
theorem c6_counterexample :
    lookupStr (parseHeaderLines ["a: 1".data, "a: 2".data] []).1 ("a".data)
        = some ("2".data) ∧
    lookupStr (parseHeaderLines ["a: 1".data, "a: 2".data] []).1 ("a".data)
        ≠ some ("1".data) ∧
    handle_request
      ⟨[(⟨HttpVerb.GET, "/x".data⟩, fun r => (lookupStr r.headers ("a".data)).getD [])], []⟩
      (("GET /x HTTP/1.1\r\na: 1\r\na: 2\r\n\r\n").data.map Char.toNat) (fun _ => none)
      = some ("2".data, fun _ => none) :=
  ⟨rfl, by decide, rfl⟩

/-- C6 (amended): on duplicate (case-insensitively equal) header names the
value stored in the parsed map is the value of the LAST occurrence
(`HashMap::insert` overwrites, `lib.rs:256`), and the keys of the resulting
map are unique.  `lastHeaderValue` is the word-for-word reading of the
amended claim. -/
theorem c6_amended_last_wins : ∀ (lines : List Str) (q : Str),
    lookupStr (parseHeaderLines lines []).1 q = lastHeaderValue lines q ∧
    ((parseHeaderLines lines []).1.map Prod.fst).Nodup := by
  intro lines q
  constructor
  · rw [lookupStr_parseHeaderLines]
    cases h2 : lastHeaderValue lines q <;> simp [h2, lookupStr]
  · exact nodup_parseHeaderLines lines [] (by simp)

/-- C3: whenever the first CR-LF-delimited line of the (lossily decoded)
request buffer does not split on single spaces into exactly three tokens,
`handle_request` answers 400 with no body (`lib.rs:207-214`), whatever the
registry, filesystem and rest of the buffer contain. -/
theorem c3_malformed_400 (reg : ServerRegistry) (stream : List Nat) (fs : FS)
    (h : (splitOnSep [' ']
        ((splitOnSep ['\r', '\n'] (utf8Lossy stream)).headD [])).length ≠ 3) :
    handle_request reg stream fs = some (respond (some 400) none none, fs) ∧
    respond (some 400) none none = ("HTTP/1.1 400 Bad Request\r\n\r\n\r\n").data := by
  refine ⟨?_, rfl⟩
  obtain ⟨first, rest, hEq⟩ :=
    List.exists_cons_of_ne_nil (splitOnSep_ne_nil ['\r', '\n'] (utf8Lossy stream))
  rw [hEq, List.headD_cons] at h
  have hmal : parseHead stream = ParsedHead.malformed := by
    unfold parseHead
    rw [hEq]
    rcases hsp : splitOnSep [' '] first with _ | ⟨a, _ | ⟨b, _ | ⟨c, _ | tl⟩⟩⟩
    · simp [hsp]
    · simp [hsp]
    · simp [hsp]
    · rw [hsp] at h; simp at h
    · simp [hsp]
  simp [handle_request, hmal]

/-- Witness for C3 at the concrete buffer `HI` CR LF (one token). -/
theorem c3_malformed_400_witness :
    handle_request ⟨[], []⟩ (("HI\r\n").data.map Char.toNat) (fun _ => none)
      = some (respond (some 400) none none, fun _ => none) :=
  (c3_malformed_400 ⟨[], []⟩ (("HI\r\n").data.map Char.toNat) (fun _ => none)
    (by decide)).1

/-- C4: given a well-formed three-token request line, a path token that does
not start with `/`, or one with zero non-empty `/`-separated segments,
short-circuits to 200 with empty body (`lib.rs:229-243`); the result is the
same for every registry and the filesystem is untouched, so neither handlers
nor static bindings are consulted. -/
theorem c4_short_circuit_200 (reg : ServerRegistry) (stream : List Nat) (fs : FS)
    (m p q3 : Str)
    (hsp : splitOnSep [' ']
        ((splitOnSep ['\r', '\n'] (utf8Lossy stream)).headD []) = [m, p, q3])
    (h : strStartsWith p ['/'] = false
        ∨ (splitOnSep ['/'] p).filter (fun s => !s.isEmpty) = []) :
    handle_request reg stream fs = some (respond (some 200) none none, fs) ∧
    respond (some 200) none none = ("HTTP/1.1 200 OK\r\n\r\n\r\n").data := by
  refine ⟨?_, rfl⟩
  obtain ⟨first, rest, hEq⟩ :=
    List.exists_cons_of_ne_nil (splitOnSep_ne_nil ['\r', '\n'] (utf8Lossy stream))
  rw [hEq, List.headD_cons] at hsp
  have hsc : parseHead stream = ParsedHead.shortCircuit := by
    unfold parseHead
    rw [hEq]
    rcases h with h | h
    · simp [hsp, h]
    · by_cases h1 : strStartsWith p ['/'] = false
      · simp [hsp, h1]
      · simp [hsp, h1, h]
  simp [handle_request, hsc]

/-- Witness for C4 at the concrete buffer `GET / HTTP/1.1` (the path `/` has
zero non-empty segments). -/
theorem c4_short_circuit_200_witness :
    handle_request ⟨[], []⟩ (("GET / HTTP/1.1\r\n\r\n").data.map Char.toNat)
      (fun _ => none) = some (respond (some 200) none none, fun _ => none) :=
  (c4_short_circuit_200 ⟨[], []⟩ (("GET / HTTP/1.1\r\n\r\n").data.map Char.toNat)
    (fun _ => none) ("GET".data) ("/".data) ("HTTP/1.1".data)
    (by decide) (Or.inr (by decide))).1

/-- C5: each header line before the first empty line is split on colons; a
line yielding exactly two parts stores (lowercased trimmed name, trimmed
value); any other line — including one whose value itself contains a colon,
which yields three parts — is silently skipped; the empty line stops the
loop (`lib.rs:245-262`). -/
theorem c5_header_line_processing :
    (∀ (acc : List (Str × Str)) (rest : List Str) (l : Str),
      l ≠ [] → (splitOnSep [':'] l).length ≠ 2 →
      parseHeaderLines (l :: rest) acc = parseHeaderLines rest acc) ∧
    (∀ (acc : List (Str × Str)) (rest : List Str) (l k v : Str),
      splitOnSep [':'] l = [k, v] →
      parseHeaderLines (l :: rest) acc
        = parseHeaderLines rest (mapInsert acc (toLowerStr (trimStr k)) (trimStr v))) ∧
    (∀ (acc : List (Str × Str)) (rest : List Str),
      parseHeaderLines ([] :: rest) acc = (acc, [] :: rest)) := by
  refine ⟨?_, ?_, ?_⟩
  · intro acc rest l hl h2
    rw [parseHeaderLines, if_neg hl]
    rcases hsp : splitOnSep [':'] l with _ | ⟨k, _ | ⟨v, _ | tl⟩⟩
    · rfl
    · rfl
    · rw [hsp] at h2; simp at h2
    · rfl
  · intro acc rest l k v hsp
    have hl : l ≠ [] := by
      intro he
      subst he
      simp [splitOnSep, splitFuel] at hsp
    rw [parseHeaderLines, if_neg hl, hsp]
  · intro acc rest
    rfl

/-- Witness for C5: `Host: example.com:8080` (value contains a colon, three
parts) is skipped; `User-Agent: Moz` is stored lowercased and trimmed; the
empty line stops processing. -/
theorem c5_header_line_processing_witness :
    parseHeaderLines ["Host: example.com:8080".data] [] = parseHeaderLines [] [] ∧
    parseHeaderLines ["User-Agent: Moz".data] []
      = parseHeaderLines []
          (mapInsert [] (toLowerStr (trimStr ("User-Agent".data))) (trimStr (" Moz".data))) ∧
    parseHeaderLines ([] :: ["x".data]) [] = ([], [] :: ["x".data]) :=
  ⟨c5_header_line_processing.1 [] [] (("Host: example.com:8080").data)
      (by decide) (by decide),
   c5_header_line_processing.2.1 [] [] (("User-Agent: Moz").data)
      ("User-Agent".data) (" Moz".data) (by decide),
   c5_header_line_processing.2.2 [] ["x".data]⟩

/-- C7: for a GET that matched no handler, a static binding whose prefix
matches but whose file read fails falls through to the next binding
(`lib.rs:362-364`), and when no handler matched and no binding yields a
successful read — or no binding matches at all — the answer is 404 with
empty body (`lib.rs:374`). -/
theorem c7_static_get_fallthrough :
    (∀ (p : Str) (e : StaticDirectoryEntry) (rest : List (Str × StaticDirectoryEntry))
       (path : Str) (raw : List Nat) (fs : FS),
      strStartsWith path p = true →
      fsReadToString fs (e.directory ++ path.drop p.length) = none →
      serveStatic ((p, e) :: rest) HttpVerb.GET path raw fs
        = serveStatic rest HttpVerb.GET path raw fs) ∧
    (∀ (dirs : List (Str × StaticDirectoryEntry)) (path : Str) (raw : List Nat) (fs : FS),
      (∀ pe ∈ dirs, strStartsWith path pe.1 = false
          ∨ fsReadToString fs (pe.2.directory ++ path.drop pe.1.length) = none) →
      serveStatic dirs HttpVerb.GET path raw fs = some (respond (some 404) none none, fs)) ∧
    (∀ (reg : ServerRegistry) (stream : List Nat) (fs : FS) (verb : HttpVerb)
       (p : Str) (headers : List (Str × Str)) (remaining : List Str)
       (body : Str) (braw : List Nat),
      parseHead stream = ParsedHead.ok verb p headers remaining →
      extractBody stream headers remaining = some (body, braw) →
      findMatch reg.endpoints verb p = none →
      handle_request reg stream fs = serveStatic reg.static_directories verb p braw fs) ∧
    respond (some 404) none none = ("HTTP/1.1 404 Not Found\r\n\r\n\r\n").data := by
  refine ⟨?_, serveStatic_all_miss, ?_, rfl⟩
  · intro p e rest path raw fs h1 h2
    simp [serveStatic, h1, h2]
  · intro reg stream fs verb p headers remaining body braw h1 h2 h3
    simp [handle_request, h1, h2, h3]

/-- Witness for C7: with an empty filesystem, a matching binding falls
through, the single-binding registry answers 404, and a full request to an
unregistered path routes into the static loop. -/
theorem c7_static_get_fallthrough_witness :
    serveStatic [("/files".data, ⟨"/tmp".data, false⟩)] HttpVerb.GET
        ("/files/a".data) [] (fun _ => none)
      = serveStatic [] HttpVerb.GET ("/files/a".data) [] (fun _ => none) ∧
    serveStatic [("/files".data, ⟨"/tmp".data, false⟩)] HttpVerb.GET
        ("/files/a".data) [] (fun _ => none)
      = some (respond (some 404) none none, fun _ => none) ∧
    handle_request ⟨[], [("/files".data, ⟨"/tmp".data, false⟩)]⟩
        (("GET /nope HTTP/1.1\r\n\r\n").data.map Char.toNat) (fun _ => none)
      = serveStatic [("/files".data, ⟨"/tmp".data, false⟩)] HttpVerb.GET
          ("/nope".data) [] (fun _ => none) :=
  ⟨c7_static_get_fallthrough.1 ("/files".data) ⟨"/tmp".data, false⟩ []
      ("/files/a".data) [] (fun _ => none) (by decide) rfl,
   c7_static_get_fallthrough.2.1 [("/files".data, ⟨"/tmp".data, false⟩)]
      ("/files/a".data) [] (fun _ => none)
      (by intro pe hpe; right; rfl),
   c7_static_get_fallthrough.2.2.1 ⟨[], [("/files".data, ⟨"/tmp".data, false⟩)]⟩
      (("GET /nope HTTP/1.1\r\n\r\n").data.map Char.toNat) (fun _ => none)
      HttpVerb.GET ("/nope".data) [] [[], []] [] [] rfl rfl rfl⟩

/-- C8: a POST whose path matches an upload-enabled static binding writes the
request body's raw bytes exactly (creating or truncating the file at
directory plus the path remainder) and answers 201 with empty body
(`lib.rs:366-371`); with upload disabled the binding writes nothing and
matching falls through toward 404. -/
theorem c8_static_post_upload :
    (∀ (p dir : Str) (rest : List (Str × StaticDirectoryEntry)) (path : Str)
       (raw : List Nat) (fs : FS),
      strStartsWith path p = true →
      serveStatic ((p, ⟨dir, true⟩) :: rest) HttpVerb.POST path raw fs
        = some (respond (some 201) none none,
            fsWrite fs (dir ++ path.drop p.length) raw)) ∧
    (∀ (fs : FS) (fp : Str) (raw : List Nat), fsWrite fs fp raw fp = some raw) ∧
    (∀ (p dir : Str) (rest : List (Str × StaticDirectoryEntry)) (path : Str)
       (raw : List Nat) (fs : FS),
      strStartsWith path p = true →
      serveStatic ((p, ⟨dir, false⟩) :: rest) HttpVerb.POST path raw fs
        = serveStatic rest HttpVerb.POST path raw fs) ∧
    respond (some 201) none none = ("HTTP/1.1 201 Created\r\n\r\n\r\n").data := by
  refine ⟨?_, ?_, ?_, rfl⟩
  · intro p dir rest path raw fs h1
    simp [serveStatic, h1]
  · intro fs fp raw
    simp [fsWrite]
  · intro p dir rest path raw fs h1
    simp [serveStatic, h1]

/-- Witness for C8 at a concrete upload: the enabled binding stores exactly
the body bytes of `data` and answers 201; the disabled binding falls
through. -/
theorem c8_static_post_upload_witness :
    serveStatic [("/files".data, ⟨"/tmp".data, true⟩)] HttpVerb.POST
        ("/files/new.txt".data) (("data").data.map Char.toNat) (fun _ => none)
      = some (respond (some 201) none none,
          fsWrite (fun _ => none) ("/tmp/new.txt".data) (("data").data.map Char.toNat)) ∧
    fsWrite (fun _ => none) ("/tmp/new.txt".data) (("data").data.map Char.toNat)
        ("/tmp/new.txt".data) = some (("data").data.map Char.toNat) ∧
    serveStatic [("/files".data, ⟨"/tmp".data, false⟩)] HttpVerb.POST
        ("/files/new.txt".data) (("data").data.map Char.toNat) (fun _ => none)
      = serveStatic [] HttpVerb.POST ("/files/new.txt".data)
          (("data").data.map Char.toNat) (fun _ => none) :=
  ⟨c8_static_post_upload.1 ("/files".data) ("/tmp".data) []
      ("/files/new.txt".data) (("data").data.map Char.toNat) (fun _ => none) (by decide),
   c8_static_post_upload.2.1 (fun _ => none) ("/tmp/new.txt".data)
      (("data").data.map Char.toNat),
   c8_static_post_upload.2.2.1 ("/files".data) ("/tmp".data) []
      ("/files/new.txt".data) (("data").data.map Char.toNat) (fun _ => none) (by decide)⟩

/-- C10: whenever the endpoint loop selects a handler for a parsed request,
the request's path starts with `/` and has at least one non-empty segment
(the 200 short-circuits have already been passed, `lib.rs:229-243`), every
header key is free of uppercase ASCII letters (keys are built with
`to_lowercase`, `lib.rs:257`), and the selected endpoint key's verb equals
the request verb (`lib.rs:300`). -/
theorem c10_handler_invariants (stream : List Nat) (verb : HttpVerb) (path : Str)
    (headers : List (Str × Str)) (remaining : List Str)
    (eps : List (EndpointKey × (Request → Str))) (key : EndpointKey) (hf : Request → Str)
    (hph : parseHead stream = ParsedHead.ok verb path headers remaining)
    (hfm : findMatch eps verb path = some (key, hf)) :
    strStartsWith path ['/'] = true ∧
    (splitOnSep ['/'] path).filter (fun s => !s.isEmpty) ≠ [] ∧
    (∀ kv ∈ headers, ∀ c ∈ kv.1, c.isUpper = false) ∧
    key.verb = verb := by
  obtain ⟨first, rest, hEq⟩ :=
    List.exists_cons_of_ne_nil (splitOnSep_ne_nil ['\r', '\n'] (utf8Lossy stream))
  unfold parseHead at hph
  rw [hEq] at hph
  rcases hsp : splitOnSep [' '] first with _ | ⟨a, _ | ⟨b, _ | ⟨c, _ | tl⟩⟩⟩ <;>
    simp only [hsp] at hph
  · exact absurd hph (by simp)
  · exact absurd hph (by simp)
  · exact absurd hph (by simp)
  · by_cases h1 : strStartsWith b ['/'] = false
    · rw [if_pos h1] at hph
      exact absurd hph (by simp)
    · rw [if_neg h1] at hph
      by_cases h2 : ((splitOnSep ['/'] b).filter (fun s => !s.isEmpty)).length = 0
      · rw [if_pos h2] at hph
        exact absurd hph (by simp)
      · rw [if_neg h2] at hph
        injection hph with e1 e2 e3 e4
        subst e1
        subst e2
        subst e3
        refine ⟨?_, ?_, ?_, findMatch_some_verb eps _ b key hf hfm⟩
        · cases hb : strStartsWith b ['/']
          · exact absurd hb h1
          · rfl
        · intro he
          apply h2
          rw [he]
          rfl
        · exact no_upper_parseHeaderLines rest [] (by intro kv hkv; cases hkv)
  · exact absurd hph (by simp)

/-- Witness for C10 at a concrete request to `/a` with header `X-Test: y`
matching the endpoint (GET, `/a`). -/
theorem c10_handler_invariants_witness :
    strStartsWith ("/a".data) ['/'] = true ∧
    (splitOnSep ['/'] ("/a".data)).filter (fun s => !s.isEmpty) ≠ [] ∧
    (∀ kv ∈ [(("x-test").data, ("y").data)], ∀ c ∈ kv.1, c.isUpper = false) ∧
    (⟨HttpVerb.GET, "/a".data⟩ : EndpointKey).verb = HttpVerb.GET :=
  c10_handler_invariants
    (("GET /a HTTP/1.1\r\nX-Test: y\r\n\r\n").data.map Char.toNat)
    HttpVerb.GET ("/a".data) [(("x-test").data, ("y").data)] [[], []]
    [(⟨HttpVerb.GET, "/a".data⟩, fun _ => [])] ⟨HttpVerb.GET, "/a".data⟩
    (fun _ => []) rfl rfl
